import Mathlib

/-!
Verification of the request/response correlation and completion-detection
engine of the claude-mattermost-bridge repository.

The development is a shallow embedding of the JavaScript source:

* `AnchorService` (src/state-monitor-manager.js): anchor id generation
  (`generateAnchor`), timestamp recovery (`extractTimestamp`), format
  validation (`isValidAnchor`), the tracking map (`trackAnchor` with
  `mapSet`/`mapGet`) and the periodic sweep (`cleanupOldAnchors`).
* `WebSocketExtractor` (src/websocket-extractor.js): the rolling content
  fingerprint (`hashContent`, `isContentNew`), the extraction fallback loop
  (`extractContentLoop`), the completion probe (`detectResponseCompletion`)
  and the streaming monitor loop (`monitorForResponse`), the latter modelled
  as structural recursion over a finite script of poll ticks.
* `checkResponseCompletion` (src/simple-extraction.js): the composite
  completion heuristic over a DOM probe snapshot.
* The single-flight guards of `MessageService.streamResponse` and
  `ClaudeDesktopAPIServer.startProactiveMonitoring`.

Strings from the source are modelled as `List Char`; JavaScript numbers
holding timestamps are modelled as `Int` (all arithmetic involved is exact),
and the 32-bit wrap of the content hash is made explicit with `toInt32`.
-/

/-! ## Definitions -/

/-! ### Decimal rendering and parsing of timestamps

`generateAnchor` renders `Date.now()` in decimal inside a template literal;
`extractTimestamp` recovers it with the regex `msg_(\d+)_` and `parseInt`.
-/

/-- The ASCII character of a decimal digit, as produced by decimal rendering
of a JavaScript number. -/
def digitChar (d : Nat) : Char := Char.ofNat (48 + d)

/-- Fuel-driven decimal rendering: digits of `n`, most significant first.
`natDigitsStr` instantiates the fuel so that it never runs out. -/
def natDigitsAux : Nat → Nat → List Char
  | 0, _ => []
  | fuel + 1, n => if n = 0 then [] else natDigitsAux fuel (n / 10) ++ [digitChar (n % 10)]

/-- Decimal rendering of a positive number, the model of the template-literal
interpolation of the numeric timestamp in `generateAnchor`. -/
def natDigitsStr (n : Nat) : List Char := natDigitsAux n n

/-- Model of `parseInt` applied to a run of decimal digits (the capture group
of the regex `msg_(\d+)_`). -/
def parseDigits (l : List Char) : Nat :=
  l.foldl (fun acc c => 10 * acc + (c.toNat - 48)) 0

/-! ### Anchor id generation, timestamp recovery, validation -/

/-- Model of `AnchorService.generateAnchor`: the id
`msg_TIMESTAMP_RANDOMID` built from `Date.now()` and the random suffix
`Math.random().toString(36).substring(2, 8)`. -/
def generateAnchor (timestamp : Nat) (randomId : List Char) : List Char :=
  'm' :: 's' :: 'g' :: '_' :: (natDigitsStr timestamp ++ '_' :: randomId)

/-- Maximal prefix of decimal digits and the remainder: the behaviour of the
greedy `\d+` of the regex `msg_(\d+)_`. -/
def takeDigits : List Char → List Char × List Char
  | [] => ([], [])
  | c :: rest =>
    if c.isDigit then
      let p := takeDigits rest
      (c :: p.1, p.2)
    else ([], c :: rest)

/-- Attempt to match the regex `msg_(\d+)_` at the head of the list,
returning the capture group. Greedy matching without backtracking is
faithful here: shortening the digit run can never make the following
literal `_` match, because the dropped characters are digits. -/
def matchMsgAt (l : List Char) : Option (List Char) :=
  match l with
  | c1 :: c2 :: c3 :: c4 :: rest =>
    if c1 = 'm' ∧ c2 = 's' ∧ c3 = 'g' ∧ c4 = '_' then
      let p := takeDigits rest
      if p.1 = [] then none
      else if p.2.head? = some '_' then some p.1 else none
    else none
  | _ => none

/-- Leftmost match of `msg_(\d+)_` in the list, the semantics of
`String.prototype.match` with an unanchored regex. -/
def findMsgCapture : List Char → Option (List Char)
  | [] => none
  | c :: rest =>
    match matchMsgAt (c :: rest) with
    | some ds => some ds
    | none => findMsgCapture rest

/-- Model of `AnchorService.extractTimestamp`: match `msg_(\d+)_` and
`parseInt` the capture group; `none` models the `null` returned when the
regex does not match. -/
def extractTimestamp (anchor : List Char) : Option Nat :=
  (findMsgCapture anchor).map parseDigits

/-- The character class `[a-z0-9]` of the new-format regex in
`AnchorService.isValidAnchor`. -/
def isLowerBase36 (c : Char) : Bool :=
  c.isDigit || (97 ≤ c.toNat && c.toNat ≤ 122)

/-- The character class `[a-zA-Z0-9]` of the legacy-format regex in
`AnchorService.isValidAnchor`. -/
def isAlphaNumAscii (c : Char) : Bool :=
  c.isDigit || (97 ≤ c.toNat && c.toNat ≤ 122) || (65 ≤ c.toNat && c.toNat ≤ 90)

/-- Model of `AnchorService.isValidAnchor`: the source tests the id against
two anchored regexes, the new format `msg_\d{13}_[a-z0-9]{6}` and the legacy
format `msg_\d{13}_[a-zA-Z0-9]+`, accepting if either matches. Both patterns
are rigid (fixed-width digit run), so they are modelled by direct splitting
of the character list. -/
def isValidAnchor (l : List Char) : Bool :=
  match l with
  | c1 :: c2 :: c3 :: c4 :: rest =>
    if c1 = 'm' ∧ c2 = 's' ∧ c3 = 'g' ∧ c4 = '_' then
      let ds := rest.take 13
      let tail := rest.drop 13
      (decide (ds.length = 13) && ds.all Char.isDigit) &&
      (match tail with
       | t1 :: suffix =>
         decide (t1 = '_') &&
         ((decide (suffix.length = 6) && suffix.all isLowerBase36) ||
          (!suffix.isEmpty && suffix.all isAlphaNumAscii))
       | [] => false)
    else false
  | _ => false

/-- The set of values that `Math.random().toString(36).substring(2, 8)` can
take: a possibly empty run of at most six base-36 digits (the fractional
digits of the base-36 rendering; `(0).toString(36)` is `"0"`, whose
`substring(2, 8)` is the empty string). -/
def possibleRandomSuffix (s : List Char) : Bool :=
  decide (s.length ≤ 6) && s.all isLowerBase36

/-! ### Anchor registry (`AnchorService` tracking map and sweep) -/

/-- The metadata record stored in `this.anchors` for a tracked anchor,
mirroring the object literal built in `trackAnchor`. -/
structure AnchorRecord where
  anchor : List Char
  createdAt : Int
  status : String
  contextId : Option String
  injectionResult : Option String
  extractionResult : Option String
  lastActivity : Int
deriving DecidableEq

/-- Optional overrides supplied by the caller of `trackAnchor`; the JS
spread `...metadata` replaces exactly the fields the caller provides. An
absent field (`none`) keeps the freshly built default. -/
structure AnchorMetadata where
  createdAt : Option Int := none
  status : Option String := none
  contextId : Option (Option String) := none
  injectionResult : Option (Option String) := none
  extractionResult : Option (Option String) := none
  lastActivity : Option Int := none
deriving DecidableEq

/-- Lookup in the anchors map (`Map.prototype.get`). -/
def mapGet (m : List (List Char × AnchorRecord)) (k : List Char) : Option AnchorRecord :=
  match m with
  | [] => none
  | (k2, v) :: rest => if k2 = k then some v else mapGet rest k

/-- Insertion in the anchors map (`Map.prototype.set`): overwrites the value
of an existing key in place, otherwise appends a new entry. -/
def mapSet (m : List (List Char × AnchorRecord)) (k : List Char) (v : AnchorRecord) :
    List (List Char × AnchorRecord) :=
  match m with
  | [] => [(k, v)]
  | (k2, v2) :: rest => if k2 = k then (k2, v) :: rest else (k2, v2) :: mapSet rest k v

/-- Model of `AnchorService.trackAnchor`: builds a fresh tracking record
(with `createdAt` and `lastActivity` both set to the current time and
status `created`), applies the metadata spread, and stores it with
`this.anchors.set(anchor, trackingData)` — unconditionally, whether or not
the id is already present. Returns the record and the updated map. -/
def trackAnchor (anchors : List (List Char × AnchorRecord)) (anchor : List Char)
    (now : Int) (metadata : AnchorMetadata) :
    AnchorRecord × List (List Char × AnchorRecord) :=
  let trackingData : AnchorRecord :=
    { anchor := anchor
      createdAt := metadata.createdAt.getD now
      status := metadata.status.getD "created"
      contextId := metadata.contextId.getD none
      injectionResult := metadata.injectionResult.getD none
      extractionResult := metadata.extractionResult.getD none
      lastActivity := metadata.lastActivity.getD now }
  (trackingData, mapSet anchors anchor trackingData)

/-- Model of `AnchorService.cleanupOldAnchors`: computes the cutoff
`Date.now() - maxAgeHours * 60 * 60 * 1000` and deletes every entry whose
`lastActivity` is below it. The loop body tests only `lastActivity`; no
other field of the record is consulted. Returns the surviving map and the
number of deleted entries (`cleanedCount`). -/
def cleanupOldAnchors (anchors : List (List Char × AnchorRecord))
    (now : Int) (maxAgeHours : Int) : List (List Char × AnchorRecord) × Nat :=
  let cutoff := now - maxAgeHours * 60 * 60 * 1000
  let kept := anchors.filter (fun p => !decide (p.2.lastActivity < cutoff))
  (kept, anchors.length - kept.length)

/-! ### Completion heuristics

Two completion checkers exist in the source. `checkResponseCompletion` in
src/simple-extraction.js combines the busy indicator with a content
requirement; `detectResponseCompletion` in src/websocket-extractor.js runs
an in-page snippet whose verdict depends on the stop button alone.
-/

/-- The stop-button observations gathered by the in-page snippet of
`WebSocketExtractor.detectResponseCompletion`: element presence, the
`hidden` property, and the computed `display` and `visibility` styles. -/
structure StopButtonProbe where
  found : Bool
  hidden : Bool
  displayNone : Bool
  visibilityHidden : Bool
deriving DecidableEq

/-- The send-button observations gathered by the same snippet (returned in
the result object for diagnostics). -/
structure SendButtonProbe where
  found : Bool
  disabled : Bool
deriving DecidableEq

/-- The full snapshot returned by the completion snippet of
`WebSocketExtractor.detectResponseCompletion`. -/
structure CompletionProbe where
  stopButton : StopButtonProbe
  sendButton : SendButtonProbe
deriving DecidableEq

/-- The in-page computation of `WebSocketExtractor.detectResponseCompletion`:
`claudeStillResponding` holds when the stop button exists, is not hidden and
is visibly displayed; completion is its negation. The send-button fields are
returned for logging but do not enter the verdict. -/
def completionCheckPage (p : CompletionProbe) : Bool :=
  let claudeStillResponding := p.stopButton.found && !p.stopButton.hidden &&
    !p.stopButton.displayNone && !p.stopButton.visibilityHidden
  !claudeStillResponding

/-- Model of `WebSocketExtractor.detectResponseCompletion`: `none` models
every path on which the probe yields no usable snapshot (no reachable page,
an exception from `executeJavaScript`, or a response without a value), all
of which return `false`; a snapshot is evaluated by the in-page rule. -/
def detectResponseCompletion (probe : Option CompletionProbe) : Bool :=
  match probe with
  | none => false
  | some p => completionCheckPage p

/-- The stop-button state returned by `getDOMCompletionState` in
src/simple-extraction.js. -/
structure DomStopButton where
  found : Bool
  visible : Bool
deriving DecidableEq

/-- The send-button state returned by `getDOMCompletionState`. -/
structure DomSendButton where
  found : Bool
  disabled : Bool
  visible : Bool
deriving DecidableEq

/-- The DOM snapshot returned by `getDOMCompletionState`: `isResponding`
records whether the stop-button query matched at all. -/
structure DomCompletionState where
  isResponding : Bool
  stopButton : DomStopButton
  sendButton : DomSendButton
deriving DecidableEq

/-- Model of `String.prototype.trim` on the extracted content. -/
def listTrim (l : List Char) : List Char :=
  ((l.dropWhile Char.isWhitespace).reverse.dropWhile Char.isWhitespace).reverse

/-- The busy signal of `checkResponseCompletion`:
`domState.isResponding && domState.stopButton.visible`. -/
def stillBusySimple (d : DomCompletionState) : Bool :=
  d.isResponding && d.stopButton.visible

/-- The content signal of `checkResponseCompletion`: the extracted content
is truthy and its trimmed length exceeds ten characters. -/
def hasContentSignal (content : List Char) : Bool :=
  !content.isEmpty && decide (10 < (listTrim content).length)

/-- The auxiliary input-availability signal computed by
`checkResponseCompletion` (`sendButtonAvailable`): present, enabled and
visible. It is logged but never consulted by the verdict. -/
def inputAvailableSignal (d : DomCompletionState) : Bool :=
  d.sendButton.found && !d.sendButton.disabled && d.sendButton.visible

/-- Model of `checkResponseCompletion` in src/simple-extraction.js.
`anchorFoundInBody` models `lastAnchorPosition !== -1`, the regex scan of
the page text for the most recent bridge message; `domState = none` models
a failed `getDOMCompletionState` probe. The verdict is
`!claudeStillResponding && hasAnyContent`, guarded by the initial
short-content check and the anchor scan; `sendButtonAvailable` is computed
only for the log lines. -/
def checkResponseCompletion (anchorFoundInBody : Bool) (extractedContent : List Char)
    (domState : Option DomCompletionState) : Bool :=
  if extractedContent.isEmpty || decide (extractedContent.length < 20) then false
  else if !anchorFoundInBody then false
  else
    match domState with
    | none => false
    | some d =>
      let hasAnyContent := hasContentSignal extractedContent
      let claudeStillResponding := stillBusySimple d
      !claudeStillResponding && hasAnyContent

/-! ### Content fingerprint (`hashContent`, `isContentNew`) -/

/-- Wrap an integer to the signed 32-bit range, the effect of the JS
bitwise operators in `hashContent`. -/
def toInt32 (n : Int) : Int := (n + 2147483648) % 4294967296 - 2147483648

/-- One step of `WebSocketExtractor.hashContent`:
`hash = ((hash << 5) - hash) + char` followed by `hash = hash & hash`.
The shift wraps its result to 32 bits, the sum is exact, and the final
self-and wraps the running value to 32 bits. -/
def hashStep (hash : Int) (c : Char) : Int :=
  toInt32 (toInt32 (hash * 32) - hash + c.toNat)

/-- Model of `WebSocketExtractor.hashContent`: fold `hashStep` over the
content starting from zero. The source stringifies the final value; two
hash strings are equal exactly when the integers are, so the model keeps
the integer. -/
def hashContent (content : List Char) : Int := content.foldl hashStep 0

/-- The per-anchor change-detection state of `WebSocketExtractor`:
whether `trackInjection` has recorded an injection timestamp for the
anchor, and the stored fingerprint. `none` models the empty-string
sentinel written by `trackInjection`, which never equals a rendered hash. -/
structure ChangeState where
  injectionTracked : Bool
  lastHash : Option Int
deriving DecidableEq

/-- Model of `WebSocketExtractor.isContentNew`: with no tracked injection
the content is rejected; otherwise the fingerprint is compared with the
stored one, and a differing fingerprint is stored and reported as new.
Returns the verdict and the updated state. -/
def isContentNew (st : ChangeState) (content : List Char) : Bool × ChangeState :=
  if !st.injectionTracked then (false, st)
  else
    let contentHash := hashContent content
    if st.lastHash = some contentHash then (false, st)
    else (true, { st with lastHash := some contentHash })

/-! ### Streaming monitor (`WebSocketExtractor.monitorForResponse`)

The polling loop is modelled as structural recursion over a finite script
of ticks; exhausting the script models the first tick at which
`elapsed >= timeout` holds. Each tick carries the outcomes of the fallible
probe calls made during that tick: the response-start detection, the
content extraction (`some content` models `result.success && result.content`
being truthy), the completion verdict of `detectResponseCompletion` (`false`
also covers a tick aborted by a thrown probe error, which the source
catches and ignores), and the final extraction performed on completion.
-/

/-- The probe outcomes of one poll tick of `monitorForResponse`. -/
structure StreamTick where
  startSignal : Bool
  extract : Option (List Char)
  complete : Bool
  finalExtract : Option (List Char)
deriving DecidableEq

/-- One update delivered to the caller-supplied stream callback. -/
structure StreamUpdate where
  content : List Char
  complete : Bool
deriving DecidableEq

/-- The terminal result that `monitorForResponse` resolves with (the
source also resolves with `success:false` results rather than rejecting). -/
structure FinalResult where
  success : Bool
  content : List Char
  complete : Bool
deriving DecidableEq

/-- The mutable loop state of `monitorForResponse`: the `responseStarted`
flag, the `lastContent` accumulator, and the extractor's per-anchor
change-detection state. -/
structure MonitorState where
  responseStarted : Bool
  lastContent : List Char
  change : ChangeState
deriving DecidableEq

/-- The extraction phase of one tick: when extraction succeeded with truthy
content, run `isContentNew` (which always refreshes the fingerprint) and,
if the content is new and strictly longer than `lastContent`, record it and
emit one non-terminal stream update. -/
def extractStep (st : MonitorState) (extract : Option (List Char)) :
    List StreamUpdate × MonitorState :=
  match extract with
  | some content =>
    let r := isContentNew st.change content
    if r.1 && decide (st.lastContent.length < content.length) then
      ([{ content := content, complete := false }],
       { st with lastContent := content, change := r.2 })
    else ([], { st with change := r.2 })
  | none => ([], st)

/-- The final extraction pass performed once completion is detected: the
result replaces `lastContent` only when it succeeded and is strictly
longer. -/
def finalContentOf (st : MonitorState) (finalExtract : Option (List Char)) : List Char :=
  match finalExtract with
  | some c => if decide (st.lastContent.length < c.length) then c else st.lastContent
  | none => st.lastContent

/-- Model of `WebSocketExtractor.monitorForResponse`. Before the start
signal is seen, ticks only poll `detectResponseStart`; afterwards each tick
extracts content, possibly emits a growth update, and checks completion.
On completion the final extraction runs, one terminal update with
`complete := true` is emitted, and the promise resolves successfully. When
the tick script is exhausted (the timeout), the promise resolves — it never
rejects — with `success := false`, `complete := false` and the partial
`lastContent`. Returns the emitted updates and the terminal result. -/
def monitorForResponse : List StreamTick → MonitorState → List StreamUpdate × FinalResult
  | [], st => ([], { success := false, content := st.lastContent, complete := false })
  | tick :: rest, st =>
    if !st.responseStarted && !tick.startSignal then
      monitorForResponse rest st
    else
      let p := extractStep { st with responseStarted := true } tick.extract
      if tick.complete then
        (p.1 ++ [{ content := finalContentOf p.2 tick.finalExtract, complete := true }],
         { success := true, content := finalContentOf p.2 tick.finalExtract, complete := true })
      else
        let next := monitorForResponse rest p.2
        (p.1 ++ next.1, next.2)

/-- The state at the beginning of `monitorForResponse`, after
`trackInjection` has recorded the injection (the streaming entry points
call `trackInjection` during injection): `lastContent` is empty, the start
signal has not been seen, and the stored fingerprint is the sentinel. -/
def initialMonitorState : MonitorState :=
  { responseStarted := false, lastContent := [],
    change := { injectionTracked := true, lastHash := none } }

/-! ### Extraction fallback loop (`WebSocketExtractor.extractContent`) -/

/-- The value produced by one probe attempt of one extraction query, as seen
by `extractContent`: the extracted content and the optional `complete`
field of the in-page result object (`none` when the object has no such
field, the JS `undefined`). -/
structure ExtractedData where
  content : List Char
  complete : Option Bool
deriving DecidableEq

/-- One return-site object of the snippets built by
`WebSocketExtractor.generateExtractionQueries`. Every return site in the
two anchor queries and the two fallback queries constructs an object with
content, debug and bookkeeping fields; none of them carries a `complete`
field. -/
structure QueryPageResult where
  content : List Char
  debug : List Char
deriving DecidableEq

/-- Interpretation of a query return object as the data `extractContent`
reads: the `complete` field is absent. -/
def queryResultData (r : QueryPageResult) : ExtractedData :=
  { content := r.content, complete := none }

/-- Model of the attempt loop of `WebSocketExtractor.extractContent`. The
flattened sequence of query/attempt outcomes is scanned in order (`none`
models a thrown probe error or a response without a usable value); the
first result whose content exceeds ten characters wins and is returned
with `complete := extractedData.complete !== false` — true also when the
field is absent. Exhaustion returns the failure result. -/
def extractContentLoop : List (Option ExtractedData) → FinalResult
  | [] => { success := false, content := [], complete := false }
  | none :: rest => extractContentLoop rest
  | some d :: rest =>
    if decide (10 < d.content.length) then
      { success := true, content := d.content,
        complete := !decide (d.complete = some false) }
    else extractContentLoop rest

/-! ### Single-flight guards -/

/-- The decision taken by a monitor/stream entry point: whether a new
polling loop is started, and the active-anchor tracking afterwards. -/
structure MonitorStartDecision where
  startsNewLoop : Bool
  active : List (List Char)
deriving DecidableEq

/-- Model of the guard portion of `MessageService.streamResponse`: the
source records the operation with `this.activeExtractions.set(anchor, ...)`
— overwriting any entry already present — and then unconditionally starts
`monitorForResponse`. No membership test is performed. -/
def streamResponseStart (activeExtractions : List (List Char)) (anchor : List Char) :
    MonitorStartDecision :=
  { startsNewLoop := true,
    active := if anchor ∈ activeExtractions then activeExtractions
              else anchor :: activeExtractions }

/-- Model of the guard portion of
`ClaudeDesktopAPIServer.startProactiveMonitoring`: a request for an anchor
already in `this.activeMonitoring` returns immediately without starting an
interval; otherwise the anchor is added and a new polling interval starts. -/
def startProactiveMonitoring (activeMonitoring : List (List Char)) (anchor : List Char) :
    MonitorStartDecision :=
  if anchor ∈ activeMonitoring then { startsNewLoop := false, active := activeMonitoring }
  else { startsNewLoop := true, active := anchor :: activeMonitoring }

/-! ### Concrete fixtures used by witnesses and counterexamples -/

/-- A record tracked in status streaming whose last activity is far in the
past, used to exercise the sweep. -/
def staleStreamingRecord : AnchorRecord :=
  { anchor := ['m', 's', 'g', '_', '1'], createdAt := 0, status := "streaming",
    contextId := none, injectionResult := none, extractionResult := none,
    lastActivity := 0 }

/-- The scenario script of the specification: probe content grows through
two partial snapshots and the completion heuristic fires on the third tick. -/
def demoTicks : List StreamTick :=
  [{ startSignal := true, extract := some ['H', 'i'], complete := false, finalExtract := none },
   { startSignal := true, extract := some ['H', 'i', ' ', 't', 'h', 'e', 'r', 'e'],
     complete := false, finalExtract := none },
   { startSignal := true, extract := some ['H', 'i', ' ', 't', 'h', 'e', 'r', 'e', '!'],
     complete := true,
     finalExtract := some ['H', 'i', ' ', 't', 'h', 'e', 'r', 'e', '!'] }]

/-- A script on which the completion heuristic never fires: one partial
extraction, then the timeout. -/
def timeoutTicks : List StreamTick :=
  [{ startSignal := true, extract := some ['H', 'i'], complete := false, finalExtract := none }]

/-- A query return object carrying eleven characters of content, enough to
win the extraction loop. -/
def elevenCharResult : QueryPageResult :=
  { content := ['0', '1', '2', '3', '4', '5', '6', '7', '8', '9', '0'], debug := [] }

/-! ## Helper lemmas -/

theorem digitChar_toNat (d : Nat) (h : d < 10) : (digitChar d).toNat = 48 + d := by
  interval_cases d <;> decide

theorem digitChar_isDigit (d : Nat) (h : d < 10) : (digitChar d).isDigit = true := by
  interval_cases d <;> decide

theorem parseDigits_append_digit (l : List Char) (d : Nat) (h : d < 10) :
    parseDigits (l ++ [digitChar d]) = 10 * parseDigits l + d := by
  simp [parseDigits, List.foldl_append, digitChar_toNat d h]

theorem parseDigits_natDigitsAux : ∀ fuel n, n ≤ fuel →
    parseDigits (natDigitsAux fuel n) = n := by
  intro fuel
  induction fuel with
  | zero =>
    intro n hn
    interval_cases n
    simp [natDigitsAux, parseDigits]
  | succ fuel ih =>
    intro n hn
    by_cases h0 : n = 0
    · simp [natDigitsAux, h0, parseDigits]
    · have hdiv : n / 10 ≤ fuel := by
        have : n / 10 < n := Nat.div_lt_self (Nat.pos_of_ne_zero h0) (by omega)
        omega
      rw [natDigitsAux, if_neg h0,
        parseDigits_append_digit _ _ (Nat.mod_lt n (by omega)), ih _ hdiv]
      omega

theorem parseDigits_natDigitsStr (n : Nat) : parseDigits (natDigitsStr n) = n :=
  parseDigits_natDigitsAux n n le_rfl

theorem natDigitsAux_all_digits : ∀ fuel n, ∀ c ∈ natDigitsAux fuel n, c.isDigit = true := by
  intro fuel
  induction fuel with
  | zero => intro n c hc; simp [natDigitsAux] at hc
  | succ fuel ih =>
    intro n c hc
    by_cases h0 : n = 0
    · simp [natDigitsAux, h0] at hc
    · rw [natDigitsAux, if_neg h0] at hc
      rcases List.mem_append.mp hc with h | h
      · exact ih _ _ h
      · rcases List.mem_singleton.mp h with rfl
        exact digitChar_isDigit _ (Nat.mod_lt n (by omega))

theorem natDigitsStr_all_digits (n : Nat) : ∀ c ∈ natDigitsStr n, c.isDigit = true :=
  natDigitsAux_all_digits n n

theorem natDigitsStr_ne_nil (n : Nat) (h : 0 < n) : natDigitsStr n ≠ [] := by
  unfold natDigitsStr
  obtain ⟨fuel, rfl⟩ : ∃ fuel, n = fuel + 1 := ⟨n - 1, by omega⟩
  rw [natDigitsAux, if_neg (by omega)]
  simp

theorem takeDigits_append (l r : List Char) (hl : ∀ c ∈ l, c.isDigit = true)
    (hr : ∀ c, r.head? = some c → c.isDigit = false) :
    takeDigits (l ++ r) = (l, r) := by
  induction l with
  | nil =>
    cases r with
    | nil => simp [takeDigits]
    | cons c rest =>
      have : c.isDigit = false := hr c rfl
      simp [takeDigits, this]
  | cons c l ih =>
    have hc : c.isDigit = true := hl c (List.mem_cons_self c l)
    have := ih (fun d hd => hl d (List.mem_cons_of_mem c hd))
    simp [takeDigits, hc, this]

theorem matchMsgAt_generateAnchor (timestamp : Nat) (randomId : List Char)
    (h : 0 < timestamp) :
    matchMsgAt (generateAnchor timestamp randomId) = some (natDigitsStr timestamp) := by
  have htake : takeDigits (natDigitsStr timestamp ++ '_' :: randomId) =
      (natDigitsStr timestamp, '_' :: randomId) :=
    takeDigits_append _ _ (natDigitsStr_all_digits timestamp)
      (fun c hc => by simp at hc; rw [← hc]; decide)
  simp [generateAnchor, matchMsgAt, htake, natDigitsStr_ne_nil timestamp h]

theorem findMsgCapture_generateAnchor (timestamp : Nat) (randomId : List Char)
    (h : 0 < timestamp) :
    findMsgCapture (generateAnchor timestamp randomId) = some (natDigitsStr timestamp) := by
  have hmatch := matchMsgAt_generateAnchor timestamp randomId h
  unfold generateAnchor at *
  rw [findMsgCapture, hmatch]

theorem isLowerBase36_isAlphaNumAscii (c : Char) (h : isLowerBase36 c = true) :
    isAlphaNumAscii c = true := by
  simp [isLowerBase36] at h
  simp [isAlphaNumAscii]
  tauto

theorem mapGet_mapSet_self (m : List (List Char × AnchorRecord)) (k : List Char)
    (v : AnchorRecord) : mapGet (mapSet m k v) k = some v := by
  induction m with
  | nil => simp [mapGet, mapSet]
  | cons p rest ih =>
    obtain ⟨k2, v2⟩ := p
    by_cases hk : k2 = k
    · simp [mapGet, mapSet, hk]
    · simp [mapGet, mapSet, hk, ih]

theorem extractStep_cases (st : MonitorState) (e : Option (List Char)) :
    ((extractStep st e).1 = [] ∧ (extractStep st e).2.lastContent = st.lastContent) ∨
    (∃ c, (extractStep st e).1 = [{ content := c, complete := false }] ∧
      (extractStep st e).2.lastContent = c ∧ st.lastContent.length < c.length) := by
  cases e with
  | none => left; simp [extractStep]
  | some content =>
    by_cases h :
        ((isContentNew st.change content).1 && decide (st.lastContent.length < content.length))
          = true
    · right
      refine ⟨content, ?_⟩
      have h1 : (isContentNew st.change content).1 = true := ((Bool.and_eq_true _ _).mp h).1
      have hlen : st.lastContent.length < content.length :=
        of_decide_eq_true ((Bool.and_eq_true _ _).mp h).2
      simp [extractStep, h1, hlen]
    · left
      simp [extractStep, h]

theorem extractStep_responseStarted (st : MonitorState) (e : Option (List Char)) :
    (extractStep st e).2.responseStarted = st.responseStarted := by
  cases e with
  | none => simp [extractStep]
  | some content =>
    by_cases h :
        ((isContentNew st.change content).1 && decide (st.lastContent.length < content.length))
          = true
    · simp [extractStep, h]
    · simp [extractStep, h]

theorem finalContentOf_length (st : MonitorState) (f : Option (List Char)) :
    st.lastContent.length ≤ (finalContentOf st f).length := by
  cases f with
  | none => simp [finalContentOf]
  | some c =>
    by_cases h : st.lastContent.length < c.length
    · simp [finalContentOf, h]; omega
    · simp [finalContentOf, h]

theorem getLast?_cons_of_ne_nil {α : Type} (a : α) (l : List α) (h : l ≠ []) :
    (a :: l).getLast? = l.getLast? := by
  cases l with
  | nil => exact absurd rfl h
  | cons b l => exact List.getLast?_cons_cons

theorem monitorForResponse_cons_skip (t : StreamTick) (rest : List StreamTick)
    (st : MonitorState) (h : (!st.responseStarted && !t.startSignal) = true) :
    monitorForResponse (t :: rest) st = monitorForResponse rest st := by
  rw [monitorForResponse, if_pos h]

theorem monitorForResponse_cons_complete (t : StreamTick) (rest : List StreamTick)
    (st : MonitorState) (h : (!st.responseStarted && !t.startSignal) = false)
    (hc : t.complete = true) :
    monitorForResponse (t :: rest) st =
      ((extractStep { st with responseStarted := true } t.extract).1 ++
        [{ content := finalContentOf (extractStep { st with responseStarted := true }
              t.extract).2 t.finalExtract, complete := true }],
       { success := true,
         content := finalContentOf (extractStep { st with responseStarted := true }
           t.extract).2 t.finalExtract,
         complete := true }) := by
  rw [monitorForResponse, if_neg (by simp [h]), if_pos hc]

theorem monitorForResponse_cons_continue (t : StreamTick) (rest : List StreamTick)
    (st : MonitorState) (h : (!st.responseStarted && !t.startSignal) = false)
    (hc : t.complete = false) :
    monitorForResponse (t :: rest) st =
      ((extractStep { st with responseStarted := true } t.extract).1 ++
        (monitorForResponse rest (extractStep { st with responseStarted := true }
          t.extract).2).1,
       (monitorForResponse rest (extractStep { st with responseStarted := true }
         t.extract).2).2) := by
  rw [monitorForResponse, if_neg (by simp [h]), if_neg (by simp [hc])]

theorem monitorForResponse_invariant (ticks : List StreamTick) : ∀ (st : MonitorState),
    List.Chain' (fun a b => a.content.length ≤ b.content.length)
      (monitorForResponse ticks st).1 ∧
    (∀ u ∈ (monitorForResponse ticks st).1, st.lastContent.length ≤ u.content.length) ∧
    ((monitorForResponse ticks st).2.success = true →
      (monitorForResponse ticks st).1.getLast? =
        some { content := (monitorForResponse ticks st).2.content, complete := true }) := by
  induction ticks with
  | nil =>
    intro st
    refine ⟨?_, ?_, ?_⟩ <;> simp [monitorForResponse]
  | cons t rest ih =>
    intro st
    by_cases hskip : (!st.responseStarted && !t.startSignal) = true
    · rw [monitorForResponse_cons_skip t rest st hskip]
      exact ih st
    · have hskip2 : (!st.responseStarted && !t.startSignal) = false :=
        Bool.not_eq_true _ ▸ eq_false_of_ne_true hskip
      rcases extractStep_cases { st with responseStarted := true } t.extract with
        ⟨hnil, hlast⟩ | ⟨c, hone, hlast, hgrow⟩
      · by_cases hc : t.complete = true
        · rw [monitorForResponse_cons_complete t rest st hskip2 hc, hnil]
          refine ⟨?_, ?_, ?_⟩
          · simp
          · intro u hu
            simp at hu
            rw [hu]
            calc st.lastContent.length
                = ({ st with responseStarted := true } : MonitorState).lastContent.length := rfl
              _ = (extractStep { st with responseStarted := true } t.extract).2.lastContent.length := by
                  rw [hlast]
              _ ≤ _ := finalContentOf_length _ _
          · intro _
            simp
        · have hc2 : t.complete = false := eq_false_of_ne_true hc
          rw [monitorForResponse_cons_continue t rest st hskip2 hc2, hnil]
          obtain ⟨ihChain, ihLb, ihLast⟩ :=
            ih (extractStep { st with responseStarted := true } t.extract).2
          refine ⟨by simpa using ihChain, ?_, by simpa using ihLast⟩
          intro u hu
          simp at hu
          have := ihLb u hu
          rw [hlast] at this
          exact this
      · by_cases hc : t.complete = true
        · rw [monitorForResponse_cons_complete t rest st hskip2 hc, hone]
          have hfin : (extractStep { st with responseStarted := true } t.extract).2.lastContent.length ≤
              (finalContentOf (extractStep { st with responseStarted := true } t.extract).2
                t.finalExtract).length := finalContentOf_length _ _
          rw [hlast] at hfin
          refine ⟨?_, ?_, ?_⟩
          · simp [List.chain'_cons, hfin]
          · intro u hu
            simp at hu
            rcases hu with hu | hu <;> rw [hu]
            · exact le_of_lt hgrow
            · exact le_trans (le_of_lt hgrow) hfin
          · intro _
            simp
        · have hc2 : t.complete = false := eq_false_of_ne_true hc
          rw [monitorForResponse_cons_continue t rest st hskip2 hc2, hone]
          obtain ⟨ihChain, ihLb, ihLast⟩ :=
            ih (extractStep { st with responseStarted := true } t.extract).2
          have hlb : ∀ u ∈ (monitorForResponse rest
              (extractStep { st with responseStarted := true } t.extract).2).1,
              c.length ≤ u.content.length := by
            intro u hu
            have := ihLb u hu
            rw [hlast] at this
            exact this
          refine ⟨?_, ?_, ?_⟩
          · rw [List.singleton_append, List.chain'_cons']
            refine ⟨?_, ihChain⟩
            intro b hb
            exact hlb b (List.mem_of_mem_head? hb)
          · intro u hu
            rcases List.mem_cons.mp (by simpa using hu) with hu | hu
            · rw [hu]; exact le_of_lt hgrow
            · exact le_trans (le_of_lt hgrow) (hlb u hu)
          · intro hsucc
            have := ihLast (by simpa using hsucc)
            have hne : (monitorForResponse rest
                (extractStep { st with responseStarted := true } t.extract).2).1 ≠ [] := by
              intro hnil2
              rw [hnil2] at this
              simp at this
            rw [List.singleton_append,
              getLast?_cons_of_ne_nil _ _ hne]
            simpa using this

/-! ## Claims -/

/-- Claim C1 (counterexample): the sweep does remove an anchor whose status
is streaming once its last activity predates the cutoff — with
`maxAgeHours = 24` and a record whose `lastActivity` is 0, a sweep at time
90000000000 (25 hours) deletes the record even though its status is
streaming, so the lookup afterwards fails. -/
theorem cleanupOldAnchors_streaming_removed_cex :
    staleStreamingRecord.status = "streaming" ∧
    mapGet (cleanupOldAnchors [(['m', 's', 'g', '_', '1'], staleStreamingRecord)]
      90000000000 24).1 ['m', 's', 'g', '_', '1'] = none := by
  constructor
  · rfl
  · decide

/-- Claim C1 (amended): `cleanupOldAnchors` evicts exactly the entries whose
`lastActivity` predates the cutoff `now - maxAgeHours * 60 * 60 * 1000`,
regardless of status — records in status responding or streaming receive no
protection from the sweep. -/
theorem cleanupOldAnchors_age_only (anchors : List (List Char × AnchorRecord))
    (now maxAgeHours : Int) (k : List Char) (r : AnchorRecord)
    (hmem : (k, r) ∈ anchors) :
    ((k, r) ∈ (cleanupOldAnchors anchors now maxAgeHours).1 ↔
      ¬ r.lastActivity < now - maxAgeHours * 60 * 60 * 1000) := by
  simp [cleanupOldAnchors, List.mem_filter, hmem]

/-- Claim C1 (witness): the amended statement at the concrete streaming
record and sweep time of the counterexample. -/
theorem cleanupOldAnchors_age_only_witness :
    ((['m', 's', 'g', '_', '1'], staleStreamingRecord) ∈
      [(['m', 's', 'g', '_', '1'], staleStreamingRecord)]) ∧
    (((['m', 's', 'g', '_', '1'], staleStreamingRecord) ∈
        (cleanupOldAnchors [(['m', 's', 'g', '_', '1'], staleStreamingRecord)]
          90000000000 24).1) ↔
      ¬ staleStreamingRecord.lastActivity < 90000000000 - 24 * 60 * 60 * 1000) :=
  ⟨by decide, cleanupOldAnchors_age_only _ 90000000000 24 _ _ (by decide)⟩

/-- Claim C2 (counterexample): completion is declared without any content
requirement by the websocket extractor — a probe snapshot with no stop
button yields a positive completion verdict, and a monitor run whose only
tick extracts nothing but receives that verdict resolves successfully with
empty content, although the content signal is false for empty content. -/
theorem completion_without_content_cex :
    detectResponseCompletion (some
      { stopButton :=
          { found := false, hidden := false, displayNone := false, visibilityHidden := false },
        sendButton := { found := false, disabled := false } }) = true ∧
    (monitorForResponse
      [{ startSignal := true, extract := none, complete := true, finalExtract := none }]
      initialMonitorState).2 =
      { success := true, content := [], complete := true } ∧
    hasContentSignal [] = false := by
  refine ⟨rfl, by decide, rfl⟩

/-- Claim C2 (amended): in simple-extraction the verdict is
`!stillBusy && hasContent`, additionally gated by the initial short-content
guard and the anchor scan, and it is independent of the send-button
(input-availability) observations; in the websocket extractor the verdict
is `!stillBusy` alone — no content signal enters it. -/
theorem completion_decision_rules (anchorFoundInBody : Bool) (content : List Char)
    (d : DomCompletionState) (sb : DomSendButton) (p : CompletionProbe) :
    (checkResponseCompletion anchorFoundInBody content (some d) =
      (!(content.isEmpty || decide (content.length < 20)) && anchorFoundInBody &&
        (!stillBusySimple d && hasContentSignal content))) ∧
    (checkResponseCompletion anchorFoundInBody content (some { d with sendButton := sb }) =
      checkResponseCompletion anchorFoundInBody content (some d)) ∧
    (detectResponseCompletion (some p) =
      !(p.stopButton.found && !p.stopButton.hidden && !p.stopButton.displayNone &&
        !p.stopButton.visibilityHidden)) := by
  refine ⟨?_, ?_, rfl⟩
  · by_cases hA : (content.isEmpty || decide (content.length < 20)) = true
    · simp [checkResponseCompletion, hA]
    · cases anchorFoundInBody <;>
        simp [checkResponseCompletion, hA, stillBusySimple, hasContentSignal]
  · by_cases hA : (content.isEmpty || decide (content.length < 20)) = true
    · simp [checkResponseCompletion, hA]
    · cases anchorFoundInBody <;>
        simp [checkResponseCompletion, hA, stillBusySimple]

/-- Claim C3 (counterexample): a second `streamResponse` request for an
anchor that is already being streamed still starts a new monitor loop —
the guard of the claim does not exist in `MessageService.streamResponse`. -/
theorem streamResponse_duplicate_start_cex :
    (['m', 's', 'g', '_', '1'] ∈ [['m', 's', 'g', '_', '1']]) ∧
    (streamResponseStart [['m', 's', 'g', '_', '1']] ['m', 's', 'g', '_', '1']).startsNewLoop
      = true := by
  exact ⟨by decide, rfl⟩

/-- Claim C3 (amended): `startProactiveMonitoring` enforces single-flight —
a request for an anchor already in `activeMonitoring` starts no new loop —
but `MessageService.streamResponse` does not: a second request for an
anchor already in `activeExtractions` overwrites the tracking entry and
unconditionally starts another monitor loop. -/
theorem single_flight_guards (active : List (List Char)) (anchor : List Char)
    (h : anchor ∈ active) :
    (startProactiveMonitoring active anchor).startsNewLoop = false ∧
    (streamResponseStart active anchor).startsNewLoop = true := by
  constructor
  · simp [startProactiveMonitoring, h]
  · rfl

/-- Claim C3 (witness): the amended statement at a concrete active anchor. -/
theorem single_flight_guards_witness :
    (['m', 's', 'g', '_', '2'] ∈ [['m', 's', 'g', '_', '2']]) ∧
    ((startProactiveMonitoring [['m', 's', 'g', '_', '2']]
        ['m', 's', 'g', '_', '2']).startsNewLoop = false ∧
      (streamResponseStart [['m', 's', 'g', '_', '2']]
        ['m', 's', 'g', '_', '2']).startsNewLoop = true) :=
  ⟨by decide, single_flight_guards _ _ (by decide)⟩

/-- Claim C4 (counterexample): re-tracking an id resets `createdAt` — the
first call at time 100 records `createdAt = 100`, but after a second call
at time 200 with empty metadata the stored record carries
`createdAt = 200`, not the original 100. -/
theorem trackAnchor_retrack_resets_cex :
    ((trackAnchor [] ['m', 's', 'g', '_', '3'] 100 {}).1).createdAt = 100 ∧
    (mapGet (trackAnchor (trackAnchor [] ['m', 's', 'g', '_', '3'] 100 {}).2
        ['m', 's', 'g', '_', '3'] 200 {}).2 ['m', 's', 'g', '_', '3']).map
      AnchorRecord.createdAt = some 200 := by
  exact ⟨rfl, by decide⟩

/-- Claim C4 (amended): `trackAnchor` never fails and always stores a fresh
record; calling it a second time with the same id (and no metadata
override) overwrites the entry, resetting `createdAt` to the time of the
second call. -/
theorem trackAnchor_retrack_overwrites (m : List (List Char × AnchorRecord))
    (anchor : List Char) (t1 t2 : Int) :
    (mapGet (trackAnchor (trackAnchor m anchor t1 {}).2 anchor t2 {}).2 anchor).map
      AnchorRecord.createdAt = some t2 := by
  simp [trackAnchor, mapGet_mapSet_self]

/-- Claim C5: stream updates of one monitor run are delivered in
non-decreasing content-length order, and whenever the run resolves
successfully (the completion heuristic fired before the timeout), the last
emitted update is the terminal one: it carries the final content and
`complete := true`. -/
theorem monitorForResponse_monotone_stream (ticks : List StreamTick) (st : MonitorState) :
    List.Chain' (fun a b : Nat => a ≤ b)
      ((monitorForResponse ticks st).1.map (fun u => u.content.length)) ∧
    ((monitorForResponse ticks st).2.success = true →
      (monitorForResponse ticks st).1.getLast? =
        some { content := (monitorForResponse ticks st).2.content, complete := true }) := by
  obtain ⟨hchain, _, hlast⟩ := monitorForResponse_invariant ticks st
  refine ⟨?_, hlast⟩
  rw [List.chain'_map]
  exact hchain

/-- Claim C5 (witness): the scenario script resolves successfully, its
emitted lengths are the non-decreasing sequence 2, 8, 9, 9, and the last
update is terminal. -/
theorem monitorForResponse_monotone_stream_witness :
    ((monitorForResponse demoTicks initialMonitorState).1.map
        (fun u => u.content.length) = [2, 8, 9, 9] ∧
      (monitorForResponse demoTicks initialMonitorState).2.success = true) ∧
    (monitorForResponse demoTicks initialMonitorState).1.getLast? =
      some { content := (monitorForResponse demoTicks initialMonitorState).2.content,
             complete := true } :=
  ⟨⟨by decide, by decide⟩,
    (monitorForResponse_monotone_stream demoTicks initialMonitorState).2 (by decide)⟩

/-- Claim C6: when the completion heuristic never fires on any tick before
the timeout, the monitor resolves (it never rejects) with a terminal result
whose `success` and `complete` are false and whose content is the partial
content gathered so far — the content of the last emitted update, or the
initial content when nothing was emitted. -/
theorem monitorForResponse_timeout_result (ticks : List StreamTick) (st : MonitorState)
    (h : ∀ t ∈ ticks, t.complete = false) :
    (monitorForResponse ticks st).2.success = false ∧
    (monitorForResponse ticks st).2.complete = false ∧
    (monitorForResponse ticks st).2.content =
      ((monitorForResponse ticks st).1.map (fun u => u.content)).getLastD st.lastContent := by
  induction ticks generalizing st with
  | nil => refine ⟨rfl, rfl, by simp [monitorForResponse]⟩
  | cons t rest ih =>
    have ht : t.complete = false := h t (List.mem_cons_self t rest)
    have hrest : ∀ t2 ∈ rest, t2.complete = false :=
      fun t2 h2 => h t2 (List.mem_cons_of_mem t h2)
    by_cases hskip : (!st.responseStarted && !t.startSignal) = true
    · rw [monitorForResponse_cons_skip t rest st hskip]
      exact ih st hrest
    · have hskip2 : (!st.responseStarted && !t.startSignal) = false :=
        eq_false_of_ne_true hskip
      rw [monitorForResponse_cons_continue t rest st hskip2 ht]
      obtain ⟨ihs, ihc, ihcont⟩ :=
        ih (extractStep { st with responseStarted := true } t.extract).2 hrest
      rcases extractStep_cases { st with responseStarted := true } t.extract with
        ⟨hnil, hlast⟩ | ⟨c, hone, hlast, _⟩
      · rw [hnil]
        refine ⟨ihs, ihc, ?_⟩
        simp only [List.nil_append]
        rw [ihcont, hlast]
      · rw [hone]
        refine ⟨ihs, ihc, ?_⟩
        rw [List.singleton_append, List.map_cons, List.getLastD_cons, ihcont, hlast]

/-- Claim C6 (witness): a script with one partial extraction and no
completion resolves with `success := false`, `complete := false` and the
partial content. -/
theorem monitorForResponse_timeout_result_witness :
    (∀ t ∈ timeoutTicks, t.complete = false) ∧
    ((monitorForResponse timeoutTicks initialMonitorState).2.success = false ∧
      (monitorForResponse timeoutTicks initialMonitorState).2.complete = false ∧
      (monitorForResponse timeoutTicks initialMonitorState).2.content =
        ((monitorForResponse timeoutTicks initialMonitorState).1.map
          (fun u => u.content)).getLastD initialMonitorState.lastContent) :=
  ⟨by decide, monitorForResponse_timeout_result timeoutTicks initialMonitorState (by decide)⟩

/-- Claim C7: when the busy indicator cannot be determined — the DOM probe
fails in simple-extraction, or the websocket completion probe yields no
usable snapshot — the completion check returns false for that tick,
whatever the extracted content is. -/
theorem completion_probe_failure_conservative (anchorFoundInBody : Bool)
    (content : List Char) :
    checkResponseCompletion anchorFoundInBody content none = false ∧
    detectResponseCompletion none = false := by
  constructor
  · simp [checkResponseCompletion]
  · rfl

/-- Claim C8: the timestamp embedded by `generateAnchor` is recovered
exactly by `extractTimestamp`, for every positive generation time and
every random suffix. -/
theorem extractTimestamp_roundtrip (timestamp : Nat) (randomId : List Char)
    (h : 0 < timestamp) :
    extractTimestamp (generateAnchor timestamp randomId) = some timestamp := by
  rw [extractTimestamp, findMsgCapture_generateAnchor timestamp randomId h]
  simp [parseDigits_natDigitsStr]

/-- Claim C8 (witness): the round-trip at a concrete 13-digit timestamp and
suffix. -/
theorem extractTimestamp_roundtrip_witness :
    0 < 1723200000000 ∧
    extractTimestamp (generateAnchor 1723200000000 ['a', 'b', 'c', '1', '2', '3']) =
      some 1723200000000 :=
  ⟨by decide,
    extractTimestamp_roundtrip 1723200000000 ['a', 'b', 'c', '1', '2', '3'] (by decide)⟩

/-- Claim C9: when every attempt outcome comes from the generated extraction
queries — whose return objects never carry a `complete` field — a successful
`extractContent` result has `complete = true`, although no completion check
was performed. -/
theorem extractContent_complete_true (attempts : List (Option QueryPageResult))
    (h : (extractContentLoop (attempts.map (Option.map queryResultData))).success = true) :
    (extractContentLoop (attempts.map (Option.map queryResultData))).complete = true := by
  induction attempts with
  | nil => simp [extractContentLoop] at h
  | cons a rest ih =>
    cases a with
    | none =>
      simp only [List.map_cons, Option.map_none, extractContentLoop] at h ⊢
      exact ih h
    | some r =>
      by_cases hlen : 10 < (queryResultData r).content.length
      · have hlen2 : 10 < r.content.length := hlen
        simp [extractContentLoop, queryResultData, hlen2]
      · simp only [List.map_cons, Option.map_some, extractContentLoop, hlen,
          decide_eq_true_eq, if_neg hlen] at h ⊢
        exact ih h

/-- Claim C9 (witness): a single winning attempt of eleven characters yields
a successful result with `complete = true`. -/
theorem extractContent_complete_true_witness :
    (extractContentLoop ([some elevenCharResult].map (Option.map queryResultData))).success
      = true ∧
    (extractContentLoop ([some elevenCharResult].map (Option.map queryResultData))).complete
      = true :=
  ⟨by decide, extractContent_complete_true _ (by decide)⟩

/-- Claim C10 (counterexample): not every generated anchor passes the
validator. The empty random suffix is a possible value of
`Math.random().toString(36).substring(2, 8)` (it arises for
`Math.random() = 0`), and the resulting id `msg_<13 digits>_` is rejected,
because the legacy format requires at least one suffix character. -/
theorem isValidAnchor_empty_suffix_cex :
    possibleRandomSuffix [] = true ∧
    isValidAnchor (generateAnchor 1723200000000 []) = false := by
  exact ⟨rfl, by decide⟩

/-- Claim C10 (amended): every generated anchor whose random suffix is
non-empty is accepted by `isValidAnchor` (through the legacy format),
provided the timestamp renders to thirteen digits, as every value of
`Date.now()` in the current era does. -/
theorem isValidAnchor_generateAnchor (timestamp : Nat) (suffix : List Char)
    (h13 : (natDigitsStr timestamp).length = 13)
    (hp : possibleRandomSuffix suffix = true) (hne : suffix ≠ []) :
    isValidAnchor (generateAnchor timestamp suffix) = true := by
  have hs : ∀ c ∈ suffix, isLowerBase36 c = true := by
    have := ((Bool.and_eq_true _ _).mp hp).2
    exact fun c hc => (List.all_eq_true.mp this) c hc
  have htake : (natDigitsStr timestamp ++ '_' :: suffix).take 13 = natDigitsStr timestamp := by
    rw [← h13, List.take_left]
  have hdrop : (natDigitsStr timestamp ++ '_' :: suffix).drop 13 = '_' :: suffix := by
    rw [← h13, List.drop_left]
  simp only [generateAnchor, isValidAnchor, htake, hdrop]
  simp [h13, List.all_eq_true, natDigitsStr_all_digits]
  refine ⟨fun c hc => natDigitsStr_all_digits timestamp c hc, Or.inr ⟨hne, ?_⟩⟩
  exact fun c hc => isLowerBase36_isAlphaNumAscii c (hs c hc)

/-- Claim C10 (witness): the amended statement at a concrete 13-digit
timestamp and a three-character suffix. -/
theorem isValidAnchor_generateAnchor_witness :
    ((natDigitsStr 1723200000000).length = 13 ∧
      possibleRandomSuffix ['x', 'y', 'z'] = true ∧ (['x', 'y', 'z'] : List Char) ≠ []) ∧
    isValidAnchor (generateAnchor 1723200000000 ['x', 'y', 'z']) = true :=
  ⟨⟨by decide, by decide, by decide⟩,
    isValidAnchor_generateAnchor 1723200000000 ['x', 'y', 'z'] (by decide) (by decide)
      (by decide)⟩
